import Mathlib

/-!
Verification of the msgvault encryption-at-rest subsystem.

Go byte slices are modelled as `List Nat` (each entry a byte value);
fallible Go functions return `Except`/`Option`; external effects
(randomness, the OS keyring, files, subprocesses, the AEAD primitive
from Go's standard library, Argon2) are modelled as explicit inputs.
-/

namespace MsgVault

/-!
Envelope cipher constants, from internal/encryption/file.go.
-/

/-- FileVersion is the current encryption format version (file.go). -/
def FileVersion : Nat := 0x01

/-- NonceSize is the GCM nonce length in bytes (file.go). -/
def NonceSize : Nat := 12

/-- MinEncryptedSize is version(1) + nonce(12) + GCM tag(16) (file.go). -/
def MinEncryptedSize : Nat := 1 + NonceSize + 16

/-- KeySize is the required key length in bytes (provider.go). -/
def KeySize : Nat := 32

/-- Error cases of EncryptBytes/DecryptBytes in file.go, one constructor
per `fmt.Errorf` site. -/
inductive EncError where
  | badKeySize (got : Nat)
  | dataTooShort (got : Nat)
  | unsupportedVersion (b : Nat)
  | decryptionFailed
deriving DecidableEq

/-- The AES-256-GCM AEAD used by file.go comes from Go's standard library,
external to this repository.  It is modelled as a `Seal`/`Open` pair
together with the AEAD contract the code relies on: `Open` inverts `Seal`
under the sealing key, sealing adds exactly the 16-byte tag, and opening
under any other valid key fails (authentication). -/
structure AEAD where
  Seal : List Nat → List Nat → List Nat → List Nat
  Open : List Nat → List Nat → List Nat → Option (List Nat)
  seal_length : ∀ k n p, (Seal k n p).length = p.length + 16
  open_seal : ∀ k n p, k.length = KeySize → Open k n (Seal k n p) = some p
  open_seal_ne : ∀ k₁ k₂ n p, k₁.length = KeySize → k₂.length = KeySize →
    (∀ b ∈ k₁, b < 256) → (∀ b ∈ k₂, b < 256) → k₁ ≠ k₂ →
    Open k₂ n (Seal k₁ n p) = none

/-- EncryptBytes from file.go.  The fresh random nonce produced by
`rand.Read` is modelled as the explicit `nonce` input.  On a 32-byte key,
`aes.NewCipher` and `cipher.NewGCM` cannot fail, so the only error path
is the key-length check; the output is `[version][nonce][ciphertext+tag]`. -/
def EncryptBytes (G : AEAD) (nonce key plaintext : List Nat) :
    Except EncError (List Nat) :=
  if key.length ≠ 32 then .error (.badKeySize key.length)
  else .ok ([FileVersion] ++ nonce ++ G.Seal key nonce plaintext)

/-- DecryptBytes from file.go: key-length check, minimum-size check,
version-byte check, then `gcm.Open` on `data[1:13]` / `data[13:]`. -/
def DecryptBytes (G : AEAD) (key data : List Nat) :
    Except EncError (List Nat) :=
  if key.length ≠ 32 then .error (.badKeySize key.length)
  else if data.length < MinEncryptedSize then .error (.dataTooShort data.length)
  else if data.getD 0 0 ≠ FileVersion then .error (.unsupportedVersion (data.getD 0 0))
  else
    match G.Open key ((data.drop 1).take NonceSize) (data.drop (1 + NonceSize)) with
    | some p => .ok p
    | none => .error .decryptionFailed

/-- IsEncrypted from file.go: `len(data) >= MinEncryptedSize && data[0] == FileVersion`
(the short-circuit `&&` makes the indexing safe, modelled with `getD`). -/
def IsEncrypted (data : List Nat) : Bool :=
  decide (MinEncryptedSize ≤ data.length) && decide (data.getD 0 0 = FileVersion)

/-!
A concrete AEAD instance, used only to instantiate the abstract theorems
at concrete inputs.  Its tag packs the whole key into the first tag byte
via base-256 positional encoding, which makes the tag injective in the
key for byte-valued 32-byte keys.
-/

/-- Base-256 positional value of a byte list. -/
def listToNat (l : List Nat) : Nat := l.foldl (fun a b => 256 * a + b) 0

/-- Reference 16-entry tag determined by the key. -/
def tag16 (key : List Nat) : List Nat := listToNat key :: List.replicate 15 0

/-- Reference sealing: plaintext followed by the key-determined tag. -/
def refSeal (key _nonce p : List Nat) : List Nat := p ++ tag16 key

/-- Reference opening: check the trailing 16-entry tag against the key. -/
def refOpen (key _nonce c : List Nat) : Option (List Nat) :=
  if 16 ≤ c.length ∧ c.drop (c.length - 16) = tag16 key then
    some (c.take (c.length - 16))
  else none

theorem foldl_base256_inj (l₁ : List Nat) : ∀ (l₂ : List Nat) (a₁ a₂ : Nat),
    l₁.length = l₂.length → (∀ b ∈ l₁, b < 256) → (∀ b ∈ l₂, b < 256) →
    l₁.foldl (fun a b => 256 * a + b) a₁ = l₂.foldl (fun a b => 256 * a + b) a₂ →
    a₁ = a₂ ∧ l₁ = l₂ := by
  induction l₁ with
  | nil =>
    intro l₂ a₁ a₂ hlen _ _ h
    cases l₂ with
    | nil => exact ⟨h, rfl⟩
    | cons y s => simp at hlen
  | cons x t ih =>
    intro l₂ a₁ a₂ hlen h₁ h₂ h
    cases l₂ with
    | nil => simp at hlen
    | cons y s =>
      have hlen' : t.length = s.length := by simpa using hlen
      have hx : x < 256 := h₁ x (by simp)
      have hy : y < 256 := h₂ y (by simp)
      have ht : ∀ b ∈ t, b < 256 := fun b hb => h₁ b (by simp [hb])
      have hs : ∀ b ∈ s, b < 256 := fun b hb => h₂ b (by simp [hb])
      have h' := ih s (256 * a₁ + x) (256 * a₂ + y) hlen' ht hs (by simpa using h)
      obtain ⟨hacc, hts⟩ := h'
      have : a₁ = a₂ ∧ x = y := by omega
      exact ⟨this.1, by rw [this.2, hts]⟩

theorem listToNat_inj {l₁ l₂ : List Nat} (hlen : l₁.length = l₂.length)
    (h₁ : ∀ b ∈ l₁, b < 256) (h₂ : ∀ b ∈ l₂, b < 256)
    (h : listToNat l₁ = listToNat l₂) : l₁ = l₂ :=
  (foldl_base256_inj l₁ l₂ 0 0 hlen h₁ h₂ h).2

theorem tag16_length (key : List Nat) : (tag16 key).length = 16 := by
  simp [tag16]

theorem refOpen_refSeal (k n p : List Nat) :
    refOpen k n (refSeal k n p) = some p := by
  have hlen : (refSeal k n p).length = p.length + 16 := by
    simp [refSeal, tag16]
  have hsub : (refSeal k n p).length - 16 = p.length := by omega
  have hdrop : (refSeal k n p).drop p.length = tag16 k := by
    simp [refSeal]
  have htake : (refSeal k n p).take p.length = p := by
    simp [refSeal]
  rw [refOpen, if_pos]
  · rw [hsub, htake]
  · exact ⟨by omega, by rw [hsub, hdrop]⟩

theorem refOpen_refSeal_ne (k₁ k₂ n p : List Nat)
    (hl₁ : k₁.length = KeySize) (hl₂ : k₂.length = KeySize)
    (hb₁ : ∀ b ∈ k₁, b < 256) (hb₂ : ∀ b ∈ k₂, b < 256)
    (hne : k₁ ≠ k₂) : refOpen k₂ n (refSeal k₁ n p) = none := by
  have hlen : (refSeal k₁ n p).length = p.length + 16 := by
    simp [refSeal, tag16]
  have hsub : (refSeal k₁ n p).length - 16 = p.length := by omega
  have hdrop : (refSeal k₁ n p).drop p.length = tag16 k₁ := by
    simp [refSeal]
  rw [refOpen, if_neg]
  rintro ⟨-, htag⟩
  rw [hsub, hdrop] at htag
  have hhead : listToNat k₁ = listToNat k₂ := by
    simpa [tag16] using congrArg (fun l => l.headD 0) htag
  exact hne (listToNat_inj (by rw [hl₁, hl₂]) hb₁ hb₂ hhead)

/-- Concrete AEAD instance satisfying the contract, for witnesses. -/
def refAEAD : AEAD where
  Seal := refSeal
  Open := refOpen
  seal_length := fun k n p => by simp [refSeal, tag16]
  open_seal := fun k n p _ => refOpen_refSeal k n p
  open_seal_ne := fun k₁ k₂ n p h₁ h₂ b₁ b₂ hne =>
    refOpen_refSeal_ne k₁ k₂ n p h₁ h₂ b₁ b₂ hne

theorem not_ne_of_eq {a b : Nat} (h : a = b) : ¬a ≠ b := fun hh => hh h

theorem EncryptBytes_ok (G : AEAD) (nonce key p : List Nat) (hk : key.length = 32) :
    EncryptBytes G nonce key p = .ok (FileVersion :: (nonce ++ G.Seal key nonce p)) := by
  rw [EncryptBytes, if_neg (not_ne_of_eq hk)]
  rfl

theorem envelope_take_nonce (n s : List Nat) (hn : n.length = 12) :
    ((FileVersion :: (n ++ s)).drop 1).take NonceSize = n := by
  have h12 : NonceSize = n.length := by rw [hn]; rfl
  simp only [List.drop_one, List.tail_cons]
  rw [h12, List.take_left]

theorem envelope_drop_ct (n s : List Nat) (hn : n.length = 12) :
    (FileVersion :: (n ++ s)).drop (1 + NonceSize) = s := by
  have h13 : 1 + NonceSize = n.length + 1 := by rw [hn]; rfl
  rw [h13, List.drop_succ_cons, List.drop_left]

/-- Decrypting a well-formed envelope reduces to opening the AEAD on the
embedded nonce and ciphertext. -/
theorem DecryptBytes_envelope (G : AEAD) (key nonce s : List Nat)
    (hk : key.length = 32) (hn : nonce.length = 12) (hs : 16 ≤ s.length) :
    DecryptBytes G key (FileVersion :: (nonce ++ s)) =
      match G.Open key nonce s with
      | some p => .ok p
      | none => .error .decryptionFailed := by
  have hlen : (FileVersion :: (nonce ++ s)).length = 13 + s.length := by
    simp [hn]; omega
  have hnl : ¬(FileVersion :: (nonce ++ s)).length < MinEncryptedSize := by
    rw [hlen]; unfold MinEncryptedSize NonceSize; omega
  have hv : ¬(FileVersion :: (nonce ++ s)).getD 0 0 ≠ FileVersion :=
    not_ne_of_eq rfl
  rw [DecryptBytes, if_neg (not_ne_of_eq hk), if_neg hnl, if_neg hv,
    envelope_take_nonce nonce s hn, envelope_drop_ct nonce s hn]

/-- C1: for every valid 32-byte key, every 12-byte fresh nonce and every
plaintext, DecryptBytes of EncryptBytes under the same key succeeds and
returns the original plaintext. -/
theorem encrypt_decrypt_roundtrip (G : AEAD) (key nonce p : List Nat)
    (hk : key.length = 32) (hn : nonce.length = 12) :
    ∃ out, EncryptBytes G nonce key p = .ok out ∧ DecryptBytes G key out = .ok p := by
  refine ⟨FileVersion :: (nonce ++ G.Seal key nonce p),
    EncryptBytes_ok G nonce key p hk, ?_⟩
  rw [DecryptBytes_envelope G key nonce (G.Seal key nonce p) hk hn
    (by rw [G.seal_length]; omega)]
  rw [G.open_seal key nonce p hk]

theorem encrypt_decrypt_roundtrip_witness :
    ∃ out, EncryptBytes refAEAD (List.replicate 12 0) (List.replicate 32 0) [7, 7, 7] = .ok out ∧
      DecryptBytes refAEAD (List.replicate 32 0) out = .ok [7, 7, 7] :=
  encrypt_decrypt_roundtrip refAEAD (List.replicate 32 0) (List.replicate 12 0) [7, 7, 7]
    (by simp) (by simp)

/-- C4: decrypting an encryption under a different valid 32-byte key fails
with the single undifferentiated decryption-failed error and never returns
plaintext. -/
theorem decrypt_wrong_key_fails (G : AEAD) (k₁ k₂ nonce p : List Nat)
    (h₁ : k₁.length = 32) (h₂ : k₂.length = 32)
    (hb₁ : ∀ b ∈ k₁, b < 256) (hb₂ : ∀ b ∈ k₂, b < 256)
    (hne : k₁ ≠ k₂) (hn : nonce.length = 12) :
    ∃ out, EncryptBytes G nonce k₁ p = .ok out ∧
      DecryptBytes G k₂ out = .error .decryptionFailed := by
  refine ⟨FileVersion :: (nonce ++ G.Seal k₁ nonce p),
    EncryptBytes_ok G nonce k₁ p h₁, ?_⟩
  rw [DecryptBytes_envelope G k₂ nonce (G.Seal k₁ nonce p) h₂ hn
    (by rw [G.seal_length]; omega)]
  rw [G.open_seal_ne k₁ k₂ nonce p h₁ h₂ hb₁ hb₂ hne]

theorem decrypt_wrong_key_fails_witness :
    ∃ out, EncryptBytes refAEAD (List.replicate 12 0) (List.replicate 32 0) [9] = .ok out ∧
      DecryptBytes refAEAD (List.replicate 32 1) out = .error .decryptionFailed :=
  decrypt_wrong_key_fails refAEAD (List.replicate 32 0) (List.replicate 32 1)
    (List.replicate 12 0) [9] (by simp) (by simp) (by decide) (by decide) (by decide) (by simp)

/-- C5: with the fresh random per-call nonce modelled as an input, two
calls to EncryptBytes with the same key and plaintext but distinct fresh
nonces produce different output byte sequences (the nonce is embedded at
bytes 1..12 of the output). -/
theorem encrypt_distinct_nonce_distinct_output (G : AEAD) (key p n₁ n₂ : List Nat)
    (hk : key.length = 32) (h₁ : n₁.length = 12) (h₂ : n₂.length = 12)
    (hne : n₁ ≠ n₂) :
    EncryptBytes G n₁ key p ≠ EncryptBytes G n₂ key p := by
  rw [EncryptBytes_ok G n₁ key p hk, EncryptBytes_ok G n₂ key p hk]
  intro h
  have h' : FileVersion :: (n₁ ++ G.Seal key n₁ p) =
      FileVersion :: (n₂ ++ G.Seal key n₂ p) := by
    simpa using h
  have htk := congrArg (List.take NonceSize) (congrArg (List.drop 1) h')
  rw [envelope_take_nonce n₁ _ h₁, envelope_take_nonce n₂ _ h₂] at htk
  exact hne htk

theorem encrypt_distinct_nonce_distinct_output_witness :
    EncryptBytes refAEAD (List.replicate 12 0) (List.replicate 32 0) [4] ≠
      EncryptBytes refAEAD (List.replicate 12 1) (List.replicate 32 0) [4] :=
  encrypt_distinct_nonce_distinct_output refAEAD (List.replicate 32 0) [4]
    (List.replicate 12 0) (List.replicate 12 1) (by simp) (by simp) (by simp) (by decide)

/-- C6: IsEncrypted is true exactly on buffers of length at least
MinEncryptedSize whose first byte is the version marker; in particular it
is true on every output of EncryptBytes, false below the minimum length,
and false when the first byte differs from the version marker. -/
theorem isEncrypted_spec (G : AEAD) (data key nonce p : List Nat)
    (hk : key.length = 32) (hn : nonce.length = 12) :
    (IsEncrypted data = true ↔
      MinEncryptedSize ≤ data.length ∧ data.getD 0 0 = FileVersion)
    ∧ (∀ out, EncryptBytes G nonce key p = .ok out → IsEncrypted out = true)
    ∧ (data.length < MinEncryptedSize → IsEncrypted data = false)
    ∧ (data.getD 0 0 ≠ FileVersion → IsEncrypted data = false) := by
  refine ⟨by simp [IsEncrypted], ?_, ?_, ?_⟩
  · intro out hout
    rw [EncryptBytes_ok G nonce key p hk] at hout
    injection hout with hout
    subst hout
    have hlen : (FileVersion :: (nonce ++ G.Seal key nonce p)).length =
        29 + p.length := by
      simp only [List.length_cons, List.length_append, hn, G.seal_length]
      omega
    simp only [IsEncrypted, Bool.and_eq_true, decide_eq_true_eq]
    exact ⟨by rw [hlen]; unfold MinEncryptedSize NonceSize; omega, rfl⟩
  · intro hlt
    have hn' : ¬MinEncryptedSize ≤ data.length := by omega
    simp [IsEncrypted, hn']
  · intro hv
    simp only [IsEncrypted]
    rw [Bool.and_eq_false_iff]
    right
    simpa using hv

theorem isEncrypted_spec_witness :
    IsEncrypted (List.replicate 28 1) = false
    ∧ IsEncrypted (0 :: List.replicate 28 1) = false := by
  constructor
  · exact (isEncrypted_spec refAEAD (List.replicate 28 1) (List.replicate 32 0)
      (List.replicate 12 0) [] (by decide) (by decide)).2.2.1 (by decide)
  · exact (isEncrypted_spec refAEAD (0 :: List.replicate 28 1) (List.replicate 32 0)
      (List.replicate 12 0) [] (by decide) (by decide)).2.2.2 (by decide)

/-- C9: DecryptBytes is a total function that returns an error (never a
crash) on every buffer shorter than MinEncryptedSize or with an
unrecognized version byte; for a valid key the short buffer yields the
truncation error and the wrong first byte yields the unsupported-version
error, and in either malformed case the result does not depend on the
AEAD at all — the checks precede any cryptographic processing. -/
theorem DecryptBytes_badKey (G : AEAD) (key data : List Nat)
    (hks : key.length ≠ 32) :
    DecryptBytes G key data = .error (.badKeySize key.length) := by
  rw [DecryptBytes, if_pos hks]

theorem DecryptBytes_short (G : AEAD) (key data : List Nat)
    (hks : key.length = 32) (h : data.length < MinEncryptedSize) :
    DecryptBytes G key data = .error (.dataTooShort data.length) := by
  rw [DecryptBytes, if_neg (not_ne_of_eq hks), if_pos h]

theorem DecryptBytes_badVersion (G : AEAD) (key data : List Nat)
    (hks : key.length = 32) (hge : MinEncryptedSize ≤ data.length)
    (hv : data.getD 0 0 ≠ FileVersion) :
    DecryptBytes G key data = .error (.unsupportedVersion (data.getD 0 0)) := by
  rw [DecryptBytes, if_neg (not_ne_of_eq hks),
    if_neg (show ¬data.length < MinEncryptedSize by omega), if_pos hv]

/-- C9: DecryptBytes is a total function that returns an error (never a
crash) on every buffer shorter than MinEncryptedSize or with an
unrecognized version byte; for a valid key the short buffer yields the
truncation error and the wrong first byte yields the unsupported-version
error, and in either malformed case the result does not depend on the
AEAD at all, since the checks precede any cryptographic processing. -/
theorem decrypt_rejects_malformed (G G₂ : AEAD) (key data : List Nat) :
    (data.length < MinEncryptedSize ∨ data.getD 0 0 ≠ FileVersion →
      ∃ e, DecryptBytes G key data = .error e)
    ∧ (key.length = 32 → data.length < MinEncryptedSize →
      DecryptBytes G key data = .error (.dataTooShort data.length))
    ∧ (key.length = 32 → MinEncryptedSize ≤ data.length →
      data.getD 0 0 ≠ FileVersion →
      DecryptBytes G key data = .error (.unsupportedVersion (data.getD 0 0)))
    ∧ (data.length < MinEncryptedSize ∨ data.getD 0 0 ≠ FileVersion →
      DecryptBytes G key data = DecryptBytes G₂ key data) := by
  refine ⟨?_, ?_, ?_, ?_⟩
  · intro h
    by_cases hks : key.length = 32
    · rcases h with h | h
      · exact ⟨_, DecryptBytes_short G key data hks h⟩
      · by_cases hlt : data.length < MinEncryptedSize
        · exact ⟨_, DecryptBytes_short G key data hks hlt⟩
        · exact ⟨_, DecryptBytes_badVersion G key data hks (by omega) h⟩
    · exact ⟨_, DecryptBytes_badKey G key data hks⟩
  · exact fun hks h => DecryptBytes_short G key data hks h
  · exact fun hks hge hv => DecryptBytes_badVersion G key data hks hge hv
  · intro h
    by_cases hks : key.length = 32
    · rcases h with h | h
      · rw [DecryptBytes_short G key data hks h, DecryptBytes_short G₂ key data hks h]
      · by_cases hlt : data.length < MinEncryptedSize
        · rw [DecryptBytes_short G key data hks hlt,
            DecryptBytes_short G₂ key data hks hlt]
        · rw [DecryptBytes_badVersion G key data hks (by omega) h,
            DecryptBytes_badVersion G₂ key data hks (by omega) h]
    · rw [DecryptBytes_badKey G key data hks, DecryptBytes_badKey G₂ key data hks]

theorem decrypt_rejects_malformed_witness :
    DecryptBytes refAEAD (List.replicate 32 0) (List.replicate 28 1) =
      .error (.dataTooShort 28) := by
  have h := (decrypt_rejects_malformed refAEAD refAEAD (List.replicate 32 0)
    (List.replicate 28 1)).2.1 (by decide) (by decide)
  simpa using h

/-!
Key providers, from internal/encryption: provider.go, keyring.go,
part_009 (keyfile), part_008 (env), exec.go, passphrase.go.  External
effects (the OS keyring, file reads, environment lookup, subprocess runs,
base64 decoding, Argon2) are modelled as explicit inputs.
-/

/-- Error cases of the key providers, one constructor per distinct
`fmt.Errorf`/sentinel site that the claims depend on. -/
inductive ProviderError where
  | keyNotFound (dbPath : String)
  | keyringRead (msg : String)
  | invalidKeySize (got : Nat)
  | decodeFailed (source : String)
  | fileRead (path : String)
  | envUnset (name : String)
  | execRun (stderr : String)
  | saltTooShort (got : Nat)
deriving DecidableEq

/-- ValidateKey from provider.go: checks that key is exactly KeySize bytes. -/
def ValidateKey (key : List Nat) : Except ProviderError Unit :=
  if key.length ≠ KeySize then .error (.invalidKeySize key.length) else .ok ()

/-- The repeated Go pattern `if err := ValidateKey(key); err != nil { return nil, err }
return key, nil` that closes every decoding provider's GetKey. -/
def validated (key : List Nat) : Except ProviderError (List Nat) :=
  match ValidateKey key with
  | .error e => .error e
  | .ok _ => .ok key

/-- Result of the external `keyring.Get` call in keyring.go. -/
inductive KeyringLookup where
  | found (encoded : String)
  | notFound
  | otherErr (msg : String)

/-- Result of the external `keyring.Delete` call in keyring.go. -/
inductive KeyringDeleteResult where
  | deleted
  | notFound
  | otherErr (msg : String)

namespace KeyringProvider

/-- GetKey from keyring.go, as a function of the OS keyring lookup result
and the external base64 decoder. -/
def GetKey (b64 : String → Option (List Nat)) (dbPath : String)
    (lookup : KeyringLookup) : Except ProviderError (List Nat) :=
  match lookup with
  | .notFound => .error (.keyNotFound dbPath)
  | .otherErr m => .error (.keyringRead m)
  | .found encoded =>
    match b64 encoded with
    | none => .error (.decodeFailed "keyring")
    | some key => validated key

/-- DeleteKey from keyring.go: `keyring.ErrNotFound` is swallowed and
reported as success; every other keyring failure is wrapped and returned. -/
def DeleteKey (r : KeyringDeleteResult) : Except String Unit :=
  match r with
  | .deleted => .ok ()
  | .notFound => .ok ()
  | .otherErr m => .error ("deleting key from OS keyring: " ++ m)

end KeyringProvider

namespace KeyfileProvider

/-- GetKey from the keyfile provider (part_009): read the file, trim
whitespace, base64-decode, validate the size. -/
def GetKey (b64 : String → Option (List Nat)) (path : String)
    (fileContent : Option String) : Except ProviderError (List Nat) :=
  match fileContent with
  | none => .error (.fileRead path)
  | some data =>
    match b64 data.trim with
    | none => .error (.decodeFailed "keyfile")
    | some key => validated key

end KeyfileProvider

namespace EnvProvider

/-- GetKey from the env provider (part_008): look up the variable,
base64-decode the raw value, validate the size. -/
def GetKey (b64 : String → Option (List Nat)) (envVar : String)
    (envVal : Option String) : Except ProviderError (List Nat) :=
  match envVal with
  | none => .error (.envUnset envVar)
  | some raw =>
    match b64 raw with
    | none => .error (.decodeFailed "env")
    | some key => validated key

end EnvProvider

namespace ExecProvider

/-- GetKey from exec.go: run the command (its result is an input), trim
stdout, base64-decode, validate the size. -/
def GetKey (b64 : String → Option (List Nat)) (runResult : Except String String) :
    Except ProviderError (List Nat) :=
  match runResult with
  | .error stderr => .error (.execRun stderr)
  | .ok stdout =>
    match b64 stdout.trim with
    | none => .error (.decodeFailed "exec")
    | some key => validated key

end ExecProvider

namespace PassphraseProvider

/-- Argon2 time cost from passphrase.go. -/
def argon2Time : Nat := 3

/-- Argon2 memory cost in KiB from passphrase.go (64 * 1024). -/
def argon2Memory : Nat := 64 * 1024

/-- Argon2 parallelism from passphrase.go. -/
def argon2Threads : Nat := 4

/-- Minimum salt length from passphrase.go. -/
def minSaltLen : Nat := 16

/-- GetKey from passphrase.go, with the external `argon2.IDKey` function
passed in explicitly: reject short salts, then derive the key with the
fixed Argon2id parameters. -/
def GetKey (idKey : String → List Nat → Nat → Nat → Nat → Nat → List Nat)
    (passphrase : String) (salt : List Nat) : Except ProviderError (List Nat) :=
  if salt.length < minSaltLen then .error (.saltTooShort salt.length)
  else .ok (idKey passphrase salt argon2Time argon2Memory argon2Threads KeySize)

end PassphraseProvider

theorem validated_ok {k key : List Nat} (h : validated k = .ok key) :
    key.length = 32 := by
  unfold validated ValidateKey at h
  by_cases hl : k.length ≠ KeySize
  · rw [if_pos hl] at h
    exact absurd h (by simp)
  · rw [if_neg hl] at h
    injection h with h
    subst h
    simpa [KeySize] using hl

/-- C7: every provider variant (keyring, keyfile, env, passphrase, exec)
returns a key only when it is exactly 32 bytes; ValidateKey accepts
exactly the 32-byte keys, and the passphrase provider requests a 32-byte
output from Argon2id, so under the Argon2 length contract every returned
key has 32 bytes. -/
theorem providers_reject_bad_key_length
    (b64 : String → Option (List Nat))
    (idKey : String → List Nat → Nat → Nat → Nat → Nat → List Nat)
    (hid : ∀ pass salt t m th n, (idKey pass salt t m th n).length = n)
    (dbPath path envVar passphrase : String)
    (lookup : KeyringLookup) (fileContent envVal : Option String)
    (runResult : Except String String) (salt : List Nat) :
    (∀ key, ValidateKey key = .ok () ↔ key.length = 32)
    ∧ (∀ key, KeyringProvider.GetKey b64 dbPath lookup = .ok key → key.length = 32)
    ∧ (∀ key, KeyfileProvider.GetKey b64 path fileContent = .ok key → key.length = 32)
    ∧ (∀ key, EnvProvider.GetKey b64 envVar envVal = .ok key → key.length = 32)
    ∧ (∀ key, ExecProvider.GetKey b64 runResult = .ok key → key.length = 32)
    ∧ (∀ key, PassphraseProvider.GetKey idKey passphrase salt = .ok key →
        key.length = 32) := by
  refine ⟨?_, ?_, ?_, ?_, ?_, ?_⟩
  · intro key
    unfold ValidateKey
    by_cases hl : key.length ≠ KeySize
    · rw [if_pos hl]
      constructor
      · intro h; exact absurd h (by simp)
      · intro h; exact absurd (show key.length = KeySize by simpa [KeySize] using h) hl
    · rw [if_neg hl]
      simp only [true_iff]
      simpa [KeySize] using hl
  · intro key h
    cases lookup with
    | notFound => exact absurd h (by simp [KeyringProvider.GetKey])
    | otherErr m => exact absurd h (by simp [KeyringProvider.GetKey])
    | found enc =>
      rw [KeyringProvider.GetKey] at h
      cases hb : b64 enc with
      | none => rw [hb] at h; exact absurd h (by simp)
      | some k => rw [hb] at h; exact validated_ok h
  · intro key h
    cases fileContent with
    | none => exact absurd h (by simp [KeyfileProvider.GetKey])
    | some data =>
      rw [KeyfileProvider.GetKey] at h
      cases hb : b64 data.trim with
      | none => rw [hb] at h; exact absurd h (by simp)
      | some k => rw [hb] at h; exact validated_ok h
  · intro key h
    cases envVal with
    | none => exact absurd h (by simp [EnvProvider.GetKey])
    | some raw =>
      rw [EnvProvider.GetKey] at h
      cases hb : b64 raw with
      | none => rw [hb] at h; exact absurd h (by simp)
      | some k => rw [hb] at h; exact validated_ok h
  · intro key h
    cases runResult with
    | error stderr => exact absurd h (by simp [ExecProvider.GetKey])
    | ok stdout =>
      rw [ExecProvider.GetKey] at h
      cases hb : b64 stdout.trim with
      | none => rw [hb] at h; exact absurd h (by simp)
      | some k => rw [hb] at h; exact validated_ok h
  · intro key h
    rw [PassphraseProvider.GetKey] at h
    by_cases hs : salt.length < PassphraseProvider.minSaltLen
    · rw [if_pos hs] at h
      exact absurd h (by simp)
    · rw [if_neg hs] at h
      injection h with h
      subst h
      exact hid passphrase salt _ _ _ _

theorem providers_reject_bad_key_length_witness :
    ValidateKey (List.replicate 32 0) = .ok ()
    ∧ (List.replicate 32 0 : List Nat).length = 32 := by
  have h := providers_reject_bad_key_length (fun _ => none)
    (fun _ _ _ _ _ n => List.replicate n 0) (fun _ _ _ _ _ _ => by simp)
    "db" "/k" "V" "pw" .notFound none none (.error "e") (List.replicate 16 5)
  exact ⟨(h.1 (List.replicate 32 0)).mpr (by decide),
    h.2.2.2.2.2 (List.replicate 32 0) rfl⟩

/-- C8: the passphrase provider rejects salts shorter than 16 bytes with
an error, and on any salt of at least 16 bytes returns exactly the
Argon2id derivation with time cost 3, memory cost 65536 KiB, parallelism
4 and 32-byte output — a pure function of (passphrase, salt), hence
deterministic with no embedded randomness. -/
theorem passphrase_argon2id_spec
    (idKey : String → List Nat → Nat → Nat → Nat → Nat → List Nat)
    (passphrase : String) (salt : List Nat) :
    (16 ≤ salt.length →
      PassphraseProvider.GetKey idKey passphrase salt =
        .ok (idKey passphrase salt 3 65536 4 32))
    ∧ (salt.length < 16 →
      PassphraseProvider.GetKey idKey passphrase salt =
        .error (.saltTooShort salt.length)) := by
  constructor
  · intro h
    rw [PassphraseProvider.GetKey,
      if_neg (show ¬salt.length < PassphraseProvider.minSaltLen by
        unfold PassphraseProvider.minSaltLen; omega)]
    rfl
  · intro h
    rw [PassphraseProvider.GetKey,
      if_pos (show salt.length < PassphraseProvider.minSaltLen by
        unfold PassphraseProvider.minSaltLen; omega)]

theorem passphrase_argon2id_spec_witness :
    PassphraseProvider.GetKey (fun _ _ _ _ _ n => List.replicate n 0) "pw"
      (List.replicate 16 5) = .ok (List.replicate 32 0)
    ∧ PassphraseProvider.GetKey (fun _ _ _ _ _ n => List.replicate n 0) "pw"
      (List.replicate 15 5) = .error (.saltTooShort 15) := by
  constructor
  · exact (passphrase_argon2id_spec (fun _ _ _ _ _ n => List.replicate n 0) "pw"
      (List.replicate 16 5)).1 (by decide)
  · have h := (passphrase_argon2id_spec (fun _ _ _ _ _ n => List.replicate n 0) "pw"
      (List.replicate 15 5)).2 (by decide)
    simpa using h

/-- C10: DeleteKey returns success when the OS keyring reports the key as
absent (idempotent delete) and when the delete succeeded, and reports an
error only for other keyring failures. -/
theorem deleteKey_idempotent (m : String) :
    KeyringProvider.DeleteKey .notFound = .ok ()
    ∧ KeyringProvider.DeleteKey .deleted = .ok ()
    ∧ KeyringProvider.DeleteKey (.otherErr m) =
        .error ("deleting key from OS keyring: " ++ m) :=
  ⟨rfl, rfl, rfl⟩

/-!
Store re-keyer, from cmd/msgvault/cmd/encrypt.go (encryptDatabase
lines 252-311, decryptDatabase lines 313-370) and part_006
(rekeyDatabase lines 145-164).  The file system is a map from paths to
abstract content ids; each function is modelled by the list of
file-system operations it performs together with its success flag, with
one boolean input per fallible step of the underlying store engine.
-/

/-- File-system operations performed by the store migration functions. -/
inductive FsOp where
  | remove (path : String)
  | write (path : String) (content : Nat)
  | rename (src dst : String)
deriving DecidableEq

/-- Effect of one operation on the file-system state (`os.Remove`,
a file write, `os.Rename`). -/
def applyOp (fs : String → Option Nat) : FsOp → String → Option Nat
  | .remove p => fun q => if q = p then none else fs q
  | .write p c => fun q => if q = p then some c else fs q
  | .rename src dst => fun q =>
      if q = dst then fs src else if q = src then none else fs q

/-- Run a list of file-system operations in order. -/
def runOps (fs : String → Option Nat) (ops : List FsOp) : String → Option Nat :=
  ops.foldl applyOp fs

/-- Success flags for the fallible steps of encryptDatabase and
decryptDatabase: the initial open/ping of the source, the ATTACH of the
target, the sqlcipher_export bulk copy, and the DETACH. -/
structure MigrateFlags where
  pingOk : Bool
  attachOk : Bool
  exportOk : Bool
  detachOk : Bool

/-- Common body of encryptDatabase and decryptDatabase in encrypt.go:
remove any leftover temp from a previous failed attempt, open the source
under its current key, attach a fresh target at `tmp` under the
destination key, export all content into it, detach, then remove the old
journal files and rename `tmp` over the source, removing the temp's own
journal files last.  A failing export or detach removes only the temp
file, exactly as the code does. -/
def exportSwapOps (dbPath tmp : String) (c : Nat) (f : MigrateFlags) :
    List FsOp × Bool :=
  match f.pingOk, f.attachOk, f.exportOk, f.detachOk with
  | false, _, _, _ => ([.remove tmp], false)
  | true, false, _, _ => ([.remove tmp], false)
  | true, true, false, _ => ([.remove tmp, .write tmp c, .remove tmp], false)
  | true, true, true, false => ([.remove tmp, .write tmp c, .remove tmp], false)
  | true, true, true, true =>
      ([.remove tmp, .write tmp c,
        .remove (dbPath ++ "-wal"), .remove (dbPath ++ "-shm"),
        .rename tmp dbPath,
        .remove (tmp ++ "-wal"), .remove (tmp ++ "-shm")], true)

/-- encryptDatabase (encrypt.go 252-311): export-and-swap into
`dbPath + ".encrypted"`. -/
def encryptDatabaseOps (dbPath : String) (c : Nat) (f : MigrateFlags) :
    List FsOp × Bool :=
  exportSwapOps dbPath (dbPath ++ ".encrypted") c f

/-- decryptDatabase (encrypt.go 313-370): export-and-swap into
`dbPath + ".decrypted"`. -/
def decryptDatabaseOps (dbPath : String) (c : Nat) (f : MigrateFlags) :
    List FsOp × Bool :=
  exportSwapOps dbPath (dbPath ++ ".decrypted") c f

/-- rekeyDatabase (part_006 145-164): open the store at dbPath under the
old key, ping it, then issue `PRAGMA rekey`, which re-encrypts the pages
of that same file.  No temporary file is created and no rename is
performed; the successful run is a single in-place write of the store
file. -/
def rekeyDatabaseOps (dbPath : String) (c : Nat) (pingOk rekeyOk : Bool) :
    List FsOp × Bool :=
  match pingOk, rekeyOk with
  | false, _ => ([], false)
  | true, false => ([], false)
  | true, true => ([.write dbPath c], true)

theorem ne_append_of_length_pos (s t : String) (ht : t.length ≠ 0) :
    s ≠ s ++ t := by
  intro h
  have hl := congrArg String.length h
  rw [String.length_append] at hl
  omega

theorem append_ne_append_right (s : String) {t u : String}
    (h : t.length ≠ u.length) : s ++ t ≠ s ++ u := by
  intro he
  have hl := congrArg String.length he
  rw [String.length_append, String.length_append] at hl
  omega

theorem runOps_fail₁ (fs : String → Option Nat) (tmp q : String)
    (hq : q ≠ tmp) : runOps fs [FsOp.remove tmp] q = fs q := by
  simp [runOps, applyOp, hq]

theorem runOps_fail₂ (fs : String → Option Nat) (tmp : String) (c : Nat)
    (q : String) (hq : q ≠ tmp) :
    runOps fs [FsOp.remove tmp, FsOp.write tmp c, FsOp.remove tmp] q = fs q := by
  simp [runOps, applyOp, hq]

theorem runOps_success (fs : String → Option Nat) (dbPath tmp : String) (c : Nat)
    (h₁ : dbPath ≠ tmp) (h₂ : tmp ≠ dbPath ++ "-wal") (h₃ : tmp ≠ dbPath ++ "-shm")
    (h₄ : dbPath ≠ tmp ++ "-wal") (h₅ : dbPath ≠ tmp ++ "-shm")
    (h₆ : tmp ≠ tmp ++ "-wal") (h₇ : tmp ≠ tmp ++ "-shm") :
    runOps fs [FsOp.remove tmp, FsOp.write tmp c, FsOp.remove (dbPath ++ "-wal"),
      FsOp.remove (dbPath ++ "-shm"), FsOp.rename tmp dbPath,
      FsOp.remove (tmp ++ "-wal"), FsOp.remove (tmp ++ "-shm")] dbPath = some c
    ∧ runOps fs [FsOp.remove tmp, FsOp.write tmp c, FsOp.remove (dbPath ++ "-wal"),
      FsOp.remove (dbPath ++ "-shm"), FsOp.rename tmp dbPath,
      FsOp.remove (tmp ++ "-wal"), FsOp.remove (tmp ++ "-shm")] tmp = none := by
  constructor <;>
    simp [runOps, applyOp, h₁, h₂, h₃, h₄, h₅, h₆, h₇, Ne.symm h₁]

theorem exportSwap_spec (dbPath tmp : String) (fs : String → Option Nat)
    (c : Nat) (f : MigrateFlags)
    (h₁ : dbPath ≠ tmp) (h₂ : tmp ≠ dbPath ++ "-wal") (h₃ : tmp ≠ dbPath ++ "-shm")
    (h₄ : dbPath ≠ tmp ++ "-wal") (h₅ : dbPath ≠ tmp ++ "-shm")
    (h₆ : tmp ≠ tmp ++ "-wal") (h₇ : tmp ≠ tmp ++ "-shm") :
    (∀ c₂, FsOp.write dbPath c₂ ∉ (exportSwapOps dbPath tmp c f).1)
    ∧ ((exportSwapOps dbPath tmp c f).2 = false →
        runOps fs (exportSwapOps dbPath tmp c f).1 dbPath = fs dbPath
        ∧ ∀ q, q ≠ tmp → runOps fs (exportSwapOps dbPath tmp c f).1 q = fs q)
    ∧ ((exportSwapOps dbPath tmp c f).2 = true →
        runOps fs (exportSwapOps dbPath tmp c f).1 dbPath = some c
        ∧ runOps fs (exportSwapOps dbPath tmp c f).1 tmp = none) := by
  obtain ⟨p, a, e, d⟩ := f
  have hsucc := runOps_success fs dbPath tmp c h₁ h₂ h₃ h₄ h₅ h₆ h₇
  cases p <;> cases a <;> cases e <;> cases d
  all_goals
    first
    | exact ⟨fun c₂ => by simp [exportSwapOps, h₁],
        fun _ => ⟨runOps_fail₁ fs tmp dbPath h₁, fun q hq => runOps_fail₁ fs tmp q hq⟩,
        fun hs => by simp [exportSwapOps] at hs⟩
    | exact ⟨fun c₂ => by simp [exportSwapOps, h₁],
        fun _ => ⟨runOps_fail₂ fs tmp c dbPath h₁, fun q hq => runOps_fail₂ fs tmp c q hq⟩,
        fun hs => by simp [exportSwapOps] at hs⟩
    | exact ⟨fun c₂ => by simp [exportSwapOps, h₁],
        fun hf => by simp [exportSwapOps] at hf,
        fun _ => hsucc⟩

/-- C2 counterexample: the key-to-key migration rekeyDatabase, run
successfully on the store "store.db", performs exactly one in-place write
of the store file itself — no fresh target file is created, no rename is
performed, and the store file's content changes at its own path —
contradicting the claim that migration between any two key
configurations never mutates the store file in place and always swaps in
a fresh target. -/
theorem rekey_in_place_counterexample :
    rekeyDatabaseOps "store.db" 7 true true = ([FsOp.write "store.db" 7], true)
    ∧ runOps (fun q => if q = "store.db" then some 1 else none)
        (rekeyDatabaseOps "store.db" 7 true true).1 "store.db" = some 7 := by
  constructor
  · rfl
  · decide

/-- C2 (amended): encryptDatabase and decryptDatabase — migration between
the no-key and keyed configurations, in both directions — never write the
store file in place: every write goes to the fresh temp target, any
failure before the swap leaves every path other than the migration's own
temp file (in particular the store file) unchanged, and on success the
fresh target's content has replaced the store file and the temp name is
gone.  Key-to-key migration (rekeyDatabase), by contrast, performs
exactly one in-place write of the store file when it succeeds and no
file-system operation at all when a step fails. -/
theorem store_migration_spec (dbPath : String) (fs : String → Option Nat)
    (c rc : Nat) (f : MigrateFlags) (pingOk rekeyOk : Bool) :
    ((∀ c₂, FsOp.write dbPath c₂ ∉ (encryptDatabaseOps dbPath c f).1)
      ∧ ((encryptDatabaseOps dbPath c f).2 = false →
          runOps fs (encryptDatabaseOps dbPath c f).1 dbPath = fs dbPath
          ∧ ∀ q, q ≠ dbPath ++ ".encrypted" →
              runOps fs (encryptDatabaseOps dbPath c f).1 q = fs q)
      ∧ ((encryptDatabaseOps dbPath c f).2 = true →
          runOps fs (encryptDatabaseOps dbPath c f).1 dbPath = some c
          ∧ runOps fs (encryptDatabaseOps dbPath c f).1 (dbPath ++ ".encrypted") = none))
    ∧ ((∀ c₂, FsOp.write dbPath c₂ ∉ (decryptDatabaseOps dbPath c f).1)
      ∧ ((decryptDatabaseOps dbPath c f).2 = false →
          runOps fs (decryptDatabaseOps dbPath c f).1 dbPath = fs dbPath
          ∧ ∀ q, q ≠ dbPath ++ ".decrypted" →
              runOps fs (decryptDatabaseOps dbPath c f).1 q = fs q)
      ∧ ((decryptDatabaseOps dbPath c f).2 = true →
          runOps fs (decryptDatabaseOps dbPath c f).1 dbPath = some c
          ∧ runOps fs (decryptDatabaseOps dbPath c f).1 (dbPath ++ ".decrypted") = none))
    ∧ ((rekeyDatabaseOps dbPath rc pingOk rekeyOk).2 = true →
        (rekeyDatabaseOps dbPath rc pingOk rekeyOk).1 = [FsOp.write dbPath rc])
    ∧ ((rekeyDatabaseOps dbPath rc pingOk rekeyOk).2 = false →
        (rekeyDatabaseOps dbPath rc pingOk rekeyOk).1 = []) := by
  refine ⟨?_, ?_, ?_, ?_⟩
  · have h₄ : dbPath ≠ dbPath ++ ".encrypted" ++ "-wal" := by
      rw [String.append_assoc]
      exact ne_append_of_length_pos dbPath (".encrypted" ++ "-wal") (by decide)
    have h₅ : dbPath ≠ dbPath ++ ".encrypted" ++ "-shm" := by
      rw [String.append_assoc]
      exact ne_append_of_length_pos dbPath (".encrypted" ++ "-shm") (by decide)
    exact exportSwap_spec dbPath (dbPath ++ ".encrypted") fs c f
      (ne_append_of_length_pos dbPath ".encrypted" (by decide))
      (append_ne_append_right dbPath (by decide))
      (append_ne_append_right dbPath (by decide))
      h₄ h₅
      (ne_append_of_length_pos _ "-wal" (by decide))
      (ne_append_of_length_pos _ "-shm" (by decide))
  · have h₄ : dbPath ≠ dbPath ++ ".decrypted" ++ "-wal" := by
      rw [String.append_assoc]
      exact ne_append_of_length_pos dbPath (".decrypted" ++ "-wal") (by decide)
    have h₅ : dbPath ≠ dbPath ++ ".decrypted" ++ "-shm" := by
      rw [String.append_assoc]
      exact ne_append_of_length_pos dbPath (".decrypted" ++ "-shm") (by decide)
    exact exportSwap_spec dbPath (dbPath ++ ".decrypted") fs c f
      (ne_append_of_length_pos dbPath ".decrypted" (by decide))
      (append_ne_append_right dbPath (by decide))
      (append_ne_append_right dbPath (by decide))
      h₄ h₅
      (ne_append_of_length_pos _ "-wal" (by decide))
      (ne_append_of_length_pos _ "-shm" (by decide))
  · cases pingOk <;> cases rekeyOk <;> intro h <;>
      first | rfl | simp [rekeyDatabaseOps] at h
  · cases pingOk <;> cases rekeyOk <;> intro h <;>
      first | rfl | simp [rekeyDatabaseOps] at h

theorem store_migration_spec_witness :
    runOps (fun _ => some 0)
      (encryptDatabaseOps "store.db" 5 ⟨true, true, true, true⟩).1 "store.db" = some 5
    ∧ runOps (fun _ => some 0)
      (encryptDatabaseOps "store.db" 5 ⟨true, true, false, true⟩).1 "store.db" = some 0 := by
  constructor
  · exact ((store_migration_spec "store.db" (fun _ => some 0) 5 9
      ⟨true, true, true, true⟩ true true).1.2.2 rfl).1
  · exact ((store_migration_spec "store.db" (fun _ => some 0) 5 9
      ⟨true, true, false, true⟩ true true).1.2.1 rfl).1

/-!
Rotation orchestrator, step 6 (store the new key in the provider), from
rotateKeyCmd in part_006 lines 112-132.  By this point the relational
store has already been re-keyed to the new key (step 3).  Errors are
modelled as the list of their `fmt.Errorf` pieces: the literal format
segments interleaved with the interpolated values, so "the report
carries the fingerprint" is exactly membership of the fingerprint string
in that list.
-/

/-- Outcome of step 6 of rotateKeyCmd. -/
inductive StoreKeyOutcome where
  | stored
  | readOnlyWarning (provider : String) (newKeyBase64 : String)
  | failed (msg : List String)
deriving DecidableEq

/-- Step 6 of rotateKeyCmd (part_006 112-132): the switch on the
configured provider.  Inputs are the provider name, the configured
keyfile path, the results of the external `SetKey` and `os.WriteFile`
calls, and the new key's fingerprint and base64 encoding.  The keyring
branch wraps a `SetKey` failure in the DATABASE HAS BEEN RE-KEYED
warning carrying the new key's fingerprint; the keyfile branch wraps an
`os.WriteFile` failure in a bare "writing new key to keyfile" error; any
other provider only prints a read-only warning. -/
def storeNewKey (provider keyfilePath : String)
    (setKeyErr writeFileErr : Option String)
    (fp newKeyBase64 : String) : StoreKeyOutcome :=
  if provider = "keyring" ∨ provider = "" then
    match setKeyErr with
    | none => .stored
    | some e => .failed ["storing new key in keyring: ", e,
        "\n⚠️  DATABASE HAS BEEN RE-KEYED but new key was not stored.\nNew key fingerprint: ",
        fp, "\nExport it manually before it is lost"]
  else if provider = "keyfile" then
    if keyfilePath = "" then .failed ["keyfile path not configured"]
    else
      match writeFileErr with
      | none => .stored
      | some e => .failed ["writing new key to keyfile: ", e]
  else .readOnlyWarning provider newKeyBase64

/-- C3, evaluated at the failing input.  With the keyring provider a
step-6 failure carries the new key's fingerprint and the already-re-keyed
instruction, but with the keyfile provider the same failure is reported
as a bare wrapped write error in which the fingerprint does not occur —
so the partial-rotation report does not carry the fingerprint for every
writable provider, contradicting the spec's requirement. -/
theorem rotate_step6_keyfile_missing_report :
    storeNewKey "keyring" "" (some "keyring locked") none
      "SHA-256: 0011223344556677" "b64" =
      .failed ["storing new key in keyring: ", "keyring locked",
        "\n⚠️  DATABASE HAS BEEN RE-KEYED but new key was not stored.\nNew key fingerprint: ",
        "SHA-256: 0011223344556677", "\nExport it manually before it is lost"]
    ∧ "SHA-256: 0011223344556677" ∈
        (["storing new key in keyring: ", "keyring locked",
          "\n⚠️  DATABASE HAS BEEN RE-KEYED but new key was not stored.\nNew key fingerprint: ",
          "SHA-256: 0011223344556677", "\nExport it manually before it is lost"] : List String)
    ∧ storeNewKey "keyfile" "/keys/k.txt" none (some "disk full")
      "SHA-256: 0011223344556677" "b64" =
      .failed ["writing new key to keyfile: ", "disk full"]
    ∧ "SHA-256: 0011223344556677" ∉
        (["writing new key to keyfile: ", "disk full"] : List String) := by
  refine ⟨by decide, by decide, by decide, by decide⟩

end MsgVault
